import Mathlib

set_option maxHeartbeats 1000000

/-!
# myPomodoro — shallow embedding of the hierarchy / recurrence / planner core

This file embeds, as executable Lean definitions, the data-consistency core of
the myPomodoro repository and proves properties of it:

* `deriveSessionHierarchy` — from `server/src/sessionHierarchy.ts`
* `resolveHierarchy`       — from `server/src/index.ts`
* `migrateHierarchyData`   — from `server/src/dataStore.ts`
* `recurringMatchesDate`, `getPlannerForDate`, `savePlannerDay`
                           — from `server/src/dataStore.ts`

Modelling conventions:
* TypeScript `string | null | undefined` fields become `Option String`
  (`none` covers both `null` and `undefined`); JavaScript truthiness of such a
  value is `truthyStr` below (`null`/`undefined`/`""` are falsy).
* Calendar dates handed to the planner/recurrence code are the `yyyy-mm-dd`
  strings the app uses; `parseYmd` mirrors `new Date(date + "T00:00:00.000Z")`
  on that format (an unparseable string yields `none`, matching the source's
  `Number.isNaN` guard).
* `RecurringTask.createdAt` is modelled as the epoch-millisecond value that
  `new Date(item.createdAt).getTime()` produces for a parseable ISO timestamp;
  full ISO-8601 string parsing is outside the embedding.
* JavaScript `Map` construction (`new Map(list)`) keeps the **last** entry for
  a duplicated key; `topicLookup`/`projectLookup` mirror that.
* The `zod` re-validation at the end of `migrateHierarchyData` is the identity
  on values representable by these typed structures and is not modelled.
-/

namespace MyPomodoro

/-- Session type from `types.ts` (`"focus" | "break"`); `brk` stands for the
string `"break"` (a Lean keyword). -/
inductive SessionType
  | focus
  | brk
deriving DecidableEq, Repr

/-- Planner priority from `types.ts` (`"low" | "med" | "high"`). -/
inductive Priority
  | low
  | med
  | high
deriving DecidableEq, Repr

/-- Goal entity (`goalSchema` in `dataStore.ts`). -/
structure Goal where
  id : String
  name : String
  description : String := ""
  createdAt : String := ""
  archived : Bool := false
deriving DecidableEq, Repr

/-- Project entity (`projectSchema`). -/
structure Project where
  id : String
  goalId : String
  name : String
  description : String := ""
  color : String := ""
  createdAt : String := ""
  archived : Bool := false
deriving DecidableEq, Repr

/-- Topic entity (`topicSchema`). -/
structure Topic where
  id : String
  projectId : String
  name : String
  color : String := ""
  createdAt : String := ""
  archived : Bool := false
deriving DecidableEq, Repr

/-- Session entity (`sessionSchema`). -/
structure SessionRecord where
  id : String
  type : SessionType
  goalId : Option String := none
  projectId : Option String := none
  topicId : Option String := none
  topicName : Option String := none
  note : Option String := none
  rating : Option Nat := none
  startTime : String := ""
  endTime : String := ""
  durationSeconds : Nat := 1
  createdAt : String := ""
deriving DecidableEq, Repr

/-- JavaScript truthiness of a `string | null | undefined` value:
`null`, `undefined` and `""` are falsy, every other string is truthy. -/
def truthyStr : Option String → Bool
  | none => false
  | some s => s != ""

/-! ## Session hierarchy resolution (`server/src/sessionHierarchy.ts`) -/

/-- The request payload taken by `deriveSessionHierarchy`. -/
structure SessionPayload where
  type : SessionType
  topicId : Option String := none
  projectId : Option String := none
  goalId : Option String := none
  topicName : Option String := none
deriving DecidableEq, Repr

/-- The `{topicId, topicName, projectId, goalId}` record returned by
`deriveSessionHierarchy`. -/
structure ResolvedHierarchy where
  topicId : Option String
  topicName : Option String
  projectId : Option String
  goalId : Option String
deriving DecidableEq, Repr

/-- `deriveSessionHierarchy` from `server/src/sessionHierarchy.ts`.
A thrown `Error(msg)` is modelled as `.error msg`.  The source's
`if (!topic || topic.archived)` is split into the `none` arm and the
`topic.archived` test; both produce the same message, exactly as in the
source.  The `none` arm of the inner match is unreachable because the
preceding guard already returned the break-session result whenever
`payload.topicId` is falsy. -/
def deriveSessionHierarchy (payload : SessionPayload) (topics : List Topic)
    (projects : List Project) : Except String ResolvedHierarchy :=
  if payload.type == .focus && !truthyStr payload.topicId then
    .error "Focus sessions require topicId"
  else if payload.type == .focus && !truthyStr payload.topicId
      && (truthyStr payload.projectId || truthyStr payload.goalId) then
    .error "Focus sessions cannot use projectId/goalId without topicId"
  else if !truthyStr payload.topicId then
    .ok { topicId := none, topicName := payload.topicName, projectId := none, goalId := none }
  else
    match payload.topicId with
    | none =>
      .ok { topicId := none, topicName := payload.topicName, projectId := none, goalId := none }
    | some tid =>
      match topics.find? (fun t => t.id == tid) with
      | none => .error "topicId does not exist"
      | some topic =>
        if topic.archived then
          .error "topicId does not exist"
        else
          match projects.find? (fun p => p.id == topic.projectId && !p.archived) with
          | none => .error "topic project does not exist"
          | some project =>
            .ok { topicId := some topic.id, topicName := some topic.name,
                  projectId := some project.id, goalId := some project.goalId }

/-! ## The second resolver variant (`resolveHierarchy` in `server/src/index.ts`) -/

/-- Input of `resolveHierarchy` (the session POST/PUT payload's hierarchy
fields). -/
structure ResolveInput where
  topicId : Option String := none
  projectId : Option String := none
  goalId : Option String := none
deriving DecidableEq, Repr

/-- Result of `resolveHierarchy` (`{topic, project, goalId, projectId}`). -/
structure ResolveOutput where
  topic : Option Topic
  project : Option Project
  goalId : Option String
  projectId : Option String
deriving DecidableEq, Repr

/-- `resolveHierarchy` from `server/src/index.ts` (the session-write path of
the HTTP server).  Unlike `deriveSessionHierarchy`, it validates a
client-supplied `projectId` and rejects one that does not exist or does not
match the topic's project. -/
def resolveHierarchy (input : ResolveInput) (topics : List Topic)
    (projects : List Project) : Except String ResolveOutput :=
  let topic : Option Topic :=
    match input.topicId with
    | some tid => if tid != "" then topics.find? (fun t => t.id == tid) else none
    | none => none
  if truthyStr input.topicId && topic.isNone then
    .error "topicId does not exist"
  else if truthyStr input.projectId
      && !projects.any (fun p => some p.id == input.projectId) then
    .error "projectId does not exist"
  else
    let topicProjectId : Option String := topic.map (fun t => t.projectId)
    if truthyStr topicProjectId && truthyStr input.projectId
        && input.projectId != topicProjectId then
      .error "topicId does not match projectId"
    else
      let derivedProjectId : Option String := topicProjectId.orElse (fun _ => input.projectId)
      let project : Option Project :=
        match derivedProjectId with
        | some dpid => if dpid != "" then projects.find? (fun p => p.id == dpid) else none
        | none => none
      let goalId : Option String := (project.map (fun p => p.goalId)).orElse (fun _ => input.goalId)
      .ok { topic := topic, project := project, goalId := goalId,
            projectId := project.map (fun p => p.id) }

/-! ## Claims about the resolvers -/

/-- C9: resolving a session request with `type = "break"` and `topicId`
absent/null yields `projectId = null` and `goalId = null` (with
`topicId = null` and `topicName` the requested name or null), regardless of
any client-supplied `projectId`/`goalId`. -/
theorem c9_claim (payload : SessionPayload) (topics : List Topic)
    (projects : List Project) (hty : payload.type = .brk)
    (htid : payload.topicId = none) :
    deriveSessionHierarchy payload topics projects
      = .ok { topicId := none, topicName := payload.topicName,
              projectId := none, goalId := none } := by
  unfold deriveSessionHierarchy
  simp [hty, htid, truthyStr]

theorem c9_witness :
    deriveSessionHierarchy
      { type := .brk, topicId := none, projectId := some "WRONG",
        goalId := some "WRONG", topicName := some "tea" } [] []
      = .ok { topicId := none, topicName := some "tea",
              projectId := none, goalId := none } :=
  c9_claim _ [] [] rfl rfl

/-- C10: the second guard of `deriveSessionHierarchy` is dead code — no input
whatsoever can produce the error
`"Focus sessions cannot use projectId/goalId without topicId"`, because its
condition implies the condition of the first guard, which has already
returned. -/
theorem c10_claim (payload : SessionPayload) (topics : List Topic)
    (projects : List Project) :
    deriveSessionHierarchy payload topics projects
      ≠ .error "Focus sessions cannot use projectId/goalId without topicId" := by
  unfold deriveSessionHierarchy
  intro h
  split at h
  · simp at h
  · rename_i h1
    split at h
    · rename_i h2
      rw [Bool.and_eq_true] at h2
      rw [Bool.and_eq_true] at h2
      exact h1 (Bool.and_eq_true _ _ |>.mpr ⟨h2.1.1, h2.1.2⟩)
    · split at h
      · simp at h
      · split at h
        · simp at h
        · split at h
          · simp at h
          · split at h
            · simp at h
            · split at h <;> simp_all

/-- Concrete hierarchy used for claim C1: topic `T1` under project `P1` under
goal `G1`. -/
def c1Topic : Topic :=
  { id := "T1", projectId := "P1", name := "Deep Work", color := "#fff",
    createdAt := "2024-01-01T00:00:00.000Z", archived := false }

def c1Project : Project :=
  { id := "P1", goalId := "G1", name := "Project 1", description := "",
    color := "#38bdf8", createdAt := "2024-01-01T00:00:00.000Z", archived := false }

/-- C1 (amended): for `deriveSessionHierarchy`, resolving a focus request whose
`topicId` names a found, non-archived topic `T` whose `projectId` names an
existing non-archived project `P` yields exactly
`{topicId = T.id, topicName = T.name, projectId = P.id, goalId = P.goalId}`,
for **every** client-supplied `projectId`/`goalId` — the client values are
ignored.  (The server's `resolveHierarchy` variant instead rejects a
conflicting client `projectId`; see `c1_counterexample`.) -/
theorem c1_claim (T : Topic) (P : Project) (topics : List Topic)
    (projects : List Project) (pid gid tname : Option String)
    (hfind : topics.find? (fun t => t.id == T.id) = some T)
    (harch : T.archived = false)
    (hproj : projects.find? (fun p => p.id == T.projectId && !p.archived) = some P)
    (hne : T.id ≠ "") :
    deriveSessionHierarchy
      { type := .focus, topicId := some T.id, projectId := pid,
        goalId := gid, topicName := tname } topics projects
      = .ok { topicId := some T.id, topicName := some T.name,
              projectId := some P.id, goalId := some P.goalId } := by
  unfold deriveSessionHierarchy
  simp [truthyStr, hne, hfind, harch, hproj]

/-- C1 counterexample: the claim asserts the client's wrong ids are "ignored
rather than causing an error", but the `resolveHierarchy` variant in
`server/src/index.ts` (the live session-write path, also cited by the claim)
throws `"projectId does not exist"` on the claim's own example input. -/
theorem c1_counterexample :
    resolveHierarchy
      { topicId := some "T1", projectId := some "WRONG", goalId := some "WRONG" }
      [c1Topic] [c1Project]
      = .error "projectId does not exist" := by rfl

theorem c1_witness :
    deriveSessionHierarchy
      { type := .focus, topicId := some "T1", projectId := some "WRONG",
        goalId := some "WRONG", topicName := none } [c1Topic] [c1Project]
      = .ok { topicId := some "T1", topicName := some "Deep Work",
              projectId := some "P1", goalId := some "G1" } :=
  c1_claim c1Topic c1Project [c1Topic] [c1Project]
    (some "WRONG") (some "WRONG") none rfl rfl rfl (by decide)

/-- C6 (amended): exact failure characterization of `deriveSessionHierarchy`.
It fails with `"Focus sessions require topicId"` iff `type = "focus"` and the
`topicId` is **falsy** (absent, null, or the empty string — JS truthiness);
with `"topicId does not exist"` iff the `topicId` is truthy and the first
topic found with that id is missing or archived; with
`"topic project does not exist"` iff the `topicId` resolves to a non-archived
topic whose `projectId` has no non-archived project; and it succeeds in every
other case. -/
theorem c6_claim (payload : SessionPayload) (topics : List Topic)
    (projects : List Project) :
    (deriveSessionHierarchy payload topics projects
        = .error "Focus sessions require topicId"
      ↔ payload.type = .focus ∧ truthyStr payload.topicId = false)
  ∧ (deriveSessionHierarchy payload topics projects
        = .error "topicId does not exist"
      ↔ ∃ tid, payload.topicId = some tid ∧ tid ≠ "" ∧
          (topics.find? (fun t => t.id == tid) = none
            ∨ ∃ t, topics.find? (fun t2 => t2.id == tid) = some t ∧ t.archived = true))
  ∧ (deriveSessionHierarchy payload topics projects
        = .error "topic project does not exist"
      ↔ ∃ tid t, payload.topicId = some tid ∧ tid ≠ "" ∧
          topics.find? (fun t2 => t2.id == tid) = some t ∧ t.archived = false ∧
          projects.find? (fun p => p.id == t.projectId && !p.archived) = none)
  ∧ ((∃ r, deriveSessionHierarchy payload topics projects = .ok r)
      ↔ ¬(payload.type = .focus ∧ truthyStr payload.topicId = false)
        ∧ ∀ tid, payload.topicId = some tid → tid ≠ "" →
            ∃ t, topics.find? (fun t2 => t2.id == tid) = some t ∧ t.archived = false ∧
              ∃ p, projects.find? (fun p2 => p2.id == t.projectId && !p2.archived) = some p) := by
  obtain ⟨ty, otid, opid, ogid, otn⟩ := payload
  rcases otid with _ | s
  · cases ty <;> simp [deriveSessionHierarchy, truthyStr]
  · by_cases hs : s = ""
    · subst hs
      cases ty <;> simp [deriveSessionHierarchy, truthyStr]
    · rcases hfind : topics.find? (fun t => t.id == s) with _ | t
      · cases ty <;>
        · simp only [deriveSessionHierarchy, truthyStr, hs, hfind]
          simp [hs, hfind]
          intro x hx
          simpa using List.find?_eq_none.mp hfind x hx
      · rcases ht : t.archived with _ | _
        · rcases hp : projects.find? (fun p => p.id == t.projectId && !p.archived) with _ | p
          · cases ty <;>
            · simp [deriveSessionHierarchy, truthyStr, hs, hfind, ht, hp]
              refine ⟨⟨t, List.mem_of_find?_eq_some hfind, by simpa using List.find?_some hfind⟩, ?_⟩
              intro x hx hid
              have hnp := List.find?_eq_none.mp hp x hx
              simp [hid] at hnp
              exact hnp
          · cases ty <;>
            · simp [deriveSessionHierarchy, truthyStr, hs, hfind, ht, hp]
              have hpp := List.find?_some hp
              simp at hpp
              exact ⟨⟨t, List.mem_of_find?_eq_some hfind, by simpa using List.find?_some hfind⟩,
                ⟨p, List.mem_of_find?_eq_some hp, hpp.1, hpp.2⟩⟩
        · cases ty <;> simp [deriveSessionHierarchy, truthyStr, hs, hfind, ht]

/-- C6 counterexample: with `type = "focus"` and `topicId = ""` (present and
non-null, but falsy in JavaScript) the resolver fails with
`"Focus sessions require topicId"`, although the claim reserves that error for
an absent/null `topicId` (and predicts `"topicId does not exist"` here). -/
theorem c6_counterexample :
    deriveSessionHierarchy { type := .focus, topicId := some "" } [] []
      = .error "Focus sessions require topicId"
  ∧ (some "" : Option String) ≠ none :=
  ⟨rfl, by decide⟩

/-! ## Calendar dates and the recurrence matcher (`server/src/dataStore.ts`) -/

/-- Days in a month of the (proleptic) Gregorian calendar, as accepted by the
ECMAScript ISO date parser. -/
def daysInMonth (y m : Int) : Int :=
  if m == 2 then
    if (y.emod 4 == 0 && y.emod 100 != 0) || y.emod 400 == 0 then 29 else 28
  else if m == 4 || m == 6 || m == 9 || m == 11 then 30 else 31

def digitVal (c : Char) : Int := (c.toNat : Int) - 48

/-- Parse a `yyyy-mm-dd` string into `(year, month, day)`, mirroring what
`new Date(date + "T00:00:00.000Z")` accepts for the app's planner-date keys;
an unparseable string yields `none` (the source's `Number.isNaN` guard). -/
def parseYmd (s : String) : Option (Int × Int × Int) :=
  match s.toList with
  | [y1, y2, y3, y4, sep1, m1, m2, sep2, d1, d2] =>
    if sep1 == '-' && sep2 == '-' && y1.isDigit && y2.isDigit && y3.isDigit && y4.isDigit
        && m1.isDigit && m2.isDigit && d1.isDigit && d2.isDigit then
      let y := digitVal y1 * 1000 + digitVal y2 * 100 + digitVal y3 * 10 + digitVal y4
      let m := digitVal m1 * 10 + digitVal m2
      let d := digitVal d1 * 10 + digitVal d2
      if 1 ≤ m && m ≤ 12 && 1 ≤ d && d ≤ daysInMonth y m then some (y, m, d) else none
    else none
  | _ => none

/-- Days since the Unix epoch (1970-01-01) of a Gregorian calendar date
(the standard "days from civil" computation, with floor division so that
pre-1970 dates are handled exactly as `Date.UTC` does). -/
def daysFromCivil (y m d : Int) : Int :=
  let y2 := if m ≤ 2 then y - 1 else y
  let era := y2.fdiv 400
  let yoe := y2 - era * 400
  let mp := (m + 9).emod 12
  let doy := (153 * mp + 2).fdiv 5 + d - 1
  let doe := yoe * 365 + yoe.fdiv 4 - yoe.fdiv 100 + doy
  era * 146097 + doe - 719468

/-- One day in milliseconds (the source's `86400000` / `dayMs` constant). -/
def dayMs : Int := 86400000

/-- Recurrence rule (`recurrenceRuleSchema`). -/
inductive RecurrenceType
  | daily
  | weekly
deriving DecidableEq, Repr

structure RecurrenceRule where
  type : RecurrenceType
  interval : Int
  weekdays : Option (List Int) := none
deriving DecidableEq, Repr

structure Schedule where
  startMin : Int
  endMin : Int
deriving DecidableEq, Repr

/-- RecurringTask entity (`recurringTaskSchema`).  `createdAt` is the
epoch-millisecond value of the parsed `createdAt` ISO timestamp. -/
structure RecurringTask where
  id : String
  title : String
  priority : Priority
  note : Option String := none
  recurrence : RecurrenceRule
  defaultSchedule : Option Schedule := none
  createdAt : Int
  archived : Bool := false
deriving DecidableEq, Repr

/-- `recurringMatchesDate` from `server/src/dataStore.ts`:
`diffDays = Math.floor((dayDate - created) / 86400000)` (floor division),
negative difference is never due; daily rules are due every `interval`-th
day, weekly rules additionally require the ISO weekday (Monday = 1) to be in
`weekdays` and the whole-week difference to hit the interval.
(`useRecurringExpansion.ts` contains a line-for-line copy of this logic on
the client.) -/
def recurringMatchesDate (item : RecurringTask) (date : String) : Bool :=
  match parseYmd date with
  | none => false
  | some (y, m, d) =>
    let epochDay := daysFromCivil y m d
    let diffDays := (epochDay * dayMs - item.createdAt).fdiv dayMs
    if diffDays < 0 then false
    else
      match item.recurrence.type with
      | .daily => diffDays.emod item.recurrence.interval == 0
      | .weekly =>
        let weekday := ((epochDay + 4).emod 7 + 6).emod 7 + 1
        if !((item.recurrence.weekdays.getD []).contains weekday) then false
        else (diffDays.fdiv 7).emod item.recurrence.interval == 0

/-- C3 (amended): the matcher is a pure function of `(rule, createdAt, date)`
(immediate from the embedding), and a daily rule with `interval = 1` matches a
parseable date **iff that date's UTC midnight is at or after the `createdAt`
instant** — i.e. every date strictly after `createdAt`'s calendar day, and
`createdAt`'s own day exactly when `createdAt` is midnight UTC.  (The claim's
"every calendar date ≥ createdAt's calendar date" fails on the creation day
whenever `createdAt` has a nonzero time of day; see `c3_counterexample`.) -/
theorem c3_claim (item : RecurringTask) (date : String) (y m d : Int)
    (hdaily : item.recurrence.type = .daily)
    (hint : item.recurrence.interval = 1)
    (hparse : parseYmd date = some (y, m, d)) :
    recurringMatchesDate item date = true
      ↔ item.createdAt ≤ daysFromCivil y m d * dayMs := by
  unfold recurringMatchesDate
  rw [hparse]
  simp only [hdaily, hint, Int.emod_one]
  constructor
  · intro h
    by_contra hlt
    rw [not_le] at hlt
    have hneg : daysFromCivil y m d * dayMs - item.createdAt < 0 := by omega
    have := Int.fdiv_neg' hneg (show (0 : Int) < dayMs by norm_num [dayMs])
    simp [this] at h
  · intro h
    have hnn : 0 ≤ (daysFromCivil y m d * dayMs - item.createdAt).fdiv dayMs :=
      Int.fdiv_nonneg (by omega) (by norm_num [dayMs])
    rw [if_neg (by omega)]
    simp [Int.emod_one]
    exact Int.emod_one _

/-- A daily/interval-1 task created at `1970-01-01T00:01:00.000Z`
(`createdAt = 60000` ms). -/
def c3Item : RecurringTask :=
  { id := "R", title := "stretch", priority := .med,
    recurrence := { type := .daily, interval := 1 }, createdAt := 60000,
    archived := false }

/-- C3 counterexample: `c3Item` was created on calendar day `1970-01-01`
(epoch day 0), and the target date `"1970-01-01"` is ≥ that calendar date,
yet the matcher returns `false`, because the floor-divided millisecond
difference is `-1` — refuting "matches is true for every date ≥ createdAt's
date". -/
theorem c3_counterexample :
    recurringMatchesDate c3Item "1970-01-01" = false
  ∧ c3Item.createdAt.fdiv dayMs ≤ daysFromCivil 1970 1 1 := by
  constructor
  · rfl
  · decide

theorem c3_witness :
    recurringMatchesDate c3Item "1970-01-02" = true :=
  (c3_claim c3Item "1970-01-02" 1970 1 2 rfl rfl (by rfl)).mpr (by decide)

/-! ## Planner day expansion (`getPlannerForDate` / `savePlannerDay`) -/

/-- PlannerTask entity (`plannerTaskSchema`).  A freshly synthesized virtual
task has no `deleted` property in the source (undefined, i.e. falsy), which
the schema defaults to `false`; it is `false` here. -/
structure PlannerTask where
  id : String
  title : String
  priority : Priority
  note : Option String := none
  completed : Bool := false
  startMin : Option Int := none
  endMin : Option Int := none
  sourceRecurringId : Option String := none
  deleted : Bool := false
deriving DecidableEq, Repr

/-- PlannerDay entity (`plannerDaySchema`). -/
structure PlannerDay where
  tasks : List PlannerTask := []
  generatedFromRecurring : Bool := false
deriving DecidableEq, Repr

/-- The recurring ids already represented among a day's persisted tasks:
`new Set(day.tasks.filter((t) => t.sourceRecurringId).map((t) => t.sourceRecurringId))`
— the truthiness filter drops both missing and empty-string ids. -/
def persistedRecurringIds (tasks : List PlannerTask) : List String :=
  tasks.filterMap
    (fun t => match t.sourceRecurringId with
      | some s => if s != "" then some s else none
      | none => none)

/-- The virtual PlannerTask synthesized for a matching recurring definition:
`{ id: vrt_${item.id}_${date}, ..., sourceRecurringId: item.id }`. -/
def mkVirtualTask (date : String) (item : RecurringTask) : PlannerTask :=
  { id := "vrt_" ++ item.id ++ "_" ++ date, title := item.title,
    priority := item.priority, note := item.note, completed := false,
    startMin := item.defaultSchedule.map (fun s => s.startMin),
    endMin := item.defaultSchedule.map (fun s => s.endMin),
    sourceRecurringId := some item.id, deleted := false }

/-- The read-path core of `getPlannerForDate` in `server/src/dataStore.ts`,
for an already-loaded day: filter active matching recurring definitions,
suppress recurring ids already present or tombstoned among the day's tasks,
synthesize the remaining virtual tasks, and return non-deleted persisted
tasks followed by the virtual ones. -/
def expandDay (day : PlannerDay) (recurring : List RecurringTask)
    (date : String) : PlannerDay :=
  let activeRecurring := recurring.filter
    (fun item => !item.archived && recurringMatchesDate item date)
  let virtualTasks : List PlannerTask := (activeRecurring.filter
      (fun item => !(persistedRecurringIds day.tasks).contains item.id
        && !day.tasks.any (fun t => t.deleted && t.sourceRecurringId == some item.id))).map
    (mkVirtualTask date)
  { tasks := day.tasks.filter (fun t => !t.deleted) ++ virtualTasks,
    generatedFromRecurring := virtualTasks.length > 0 || day.generatedFromRecurring }

/-- `getPlannerForDate` over an in-memory planner store (the JSON object
keyed by `yyyy-mm-dd`, modelled as an association list with unique keys):
`planner[date] ?? { tasks: [], generatedFromRecurring: false }`, then expand. -/
def getPlannerForDate (planner : List (String × PlannerDay))
    (recurring : List RecurringTask) (date : String) : PlannerDay :=
  expandDay ((planner.lookup date).getD { tasks := [], generatedFromRecurring := false })
    recurring date

/-- `savePlannerDay`: `planner[date] = day` — replace the day stored under
`date`, or add it if absent. -/
def savePlannerDay (planner : List (String × PlannerDay)) (date : String)
    (day : PlannerDay) : List (String × PlannerDay) :=
  if planner.any (fun kv => kv.fst == date) then
    planner.map (fun kv => if kv.fst == date then (date, day) else kv)
  else
    planner ++ [(date, day)]

theorem lookup_map_setKey_ne (planner : List (String × PlannerDay))
    (date date2 : String) (day : PlannerDay) (h : date2 ≠ date) :
    (planner.map (fun kv => if kv.fst == date then (date, day) else kv)).lookup date2
      = planner.lookup date2 := by
  have hbeq : (date2 == date) = false := beq_eq_false_iff_ne.mpr h
  induction planner with
  | nil => rfl
  | cons kv rest ih =>
    rw [List.map_cons]
    rcases hk : (kv.fst == date) with _ | _
    · rw [if_neg (by simp [hk])]
      rcases h2 : (date2 == kv.fst) with _ | _
      · simp only [List.lookup, h2]
        exact ih
      · simp [List.lookup, h2]
    · rw [if_pos (by simp [hk])]
      have hd : kv.fst = date := by simpa using hk
      simp only [List.lookup, hd, hbeq]
      exact ih

theorem lookup_append_singleton_ne (planner : List (String × PlannerDay))
    (date date2 : String) (day : PlannerDay) (h : date2 ≠ date) :
    (planner ++ [(date, day)]).lookup date2 = planner.lookup date2 := by
  have hbeq : (date2 == date) = false := beq_eq_false_iff_ne.mpr h
  induction planner with
  | nil => simp [List.lookup, hbeq]
  | cons kv rest ih =>
    rcases h2 : (date2 == kv.fst) with _ | _
    · simp only [List.cons_append, List.lookup, h2]
      exact ih
    · simp [List.lookup, h2]

theorem lookup_savePlannerDay_ne (planner : List (String × PlannerDay))
    (date date2 : String) (day : PlannerDay) (h : date2 ≠ date) :
    (savePlannerDay planner date day).lookup date2 = planner.lookup date2 := by
  unfold savePlannerDay
  split
  · exact lookup_map_setKey_ne planner date date2 day h
  · exact lookup_append_singleton_ne planner date date2 day h

/-- C4 concrete data: a tombstone and a (still-live) persisted instance for
the same recurring id `"R"`. -/
def c4Tomb : PlannerTask :=
  { id := "k1", title := "Gym", priority := .med,
    sourceRecurringId := some "R", deleted := true }

def c4Live : PlannerTask :=
  { id := "k2", title := "Gym", priority := .med,
    sourceRecurringId := some "R", deleted := false }

def c4Rec : RecurringTask :=
  { id := "R", title := "Gym", priority := .med,
    recurrence := { type := .daily, interval := 1 }, createdAt := 0 }

/-- C4 counterexample: if the persisted day holds a tombstone for `R` **and**
a separate non-deleted persisted task with `sourceRecurringId = R`, the
expansion output still contains a task with `sourceRecurringId = R` (the live
persisted one) — the claim's "output contains no task with
sourceRecurringId=R" is false for such a day. -/
theorem c4_counterexample :
    ((expandDay { tasks := [c4Tomb, c4Live] } [] "2024-02-01").tasks.any
        (fun t => t.sourceRecurringId == some "R")) = true
  ∧ ([c4Tomb, c4Live].any (fun t => t.deleted && t.sourceRecurringId == some "R")) = true := by
  decide

/-- C4 (amended): a tombstone (`deleted = true`, `sourceRecurringId = R`) in
the persisted day guarantees that (1) expanding that day never outputs a
deleted task nor a freshly synthesized virtual instance for `R` — every
output task carrying `R` is a non-deleted task that was already persisted;
(2) expansion of any other date is unaffected by saving the tombstoned day;
and (3) for any other date with no persisted entry, `R`'s instance is still
synthesized whenever `R`'s rule matches that date. -/
theorem c4_claim (day : PlannerDay) (recurring : List RecurringTask)
    (planner : List (String × PlannerDay)) (date R : String)
    (htomb : ∃ tt, tt ∈ day.tasks ∧ tt.deleted = true ∧ tt.sourceRecurringId = some R) :
    (∀ t, t ∈ (expandDay day recurring date).tasks → t.sourceRecurringId = some R →
        t ∈ day.tasks ∧ t.deleted = false)
  ∧ (∀ date2, date2 ≠ date →
        getPlannerForDate (savePlannerDay planner date day) recurring date2
          = getPlannerForDate planner recurring date2)
  ∧ (∀ date2 r, date2 ≠ date → r ∈ recurring → r.id = R → r.archived = false →
        recurringMatchesDate r date2 = true → planner.lookup date2 = none →
        ∃ t, t ∈ (getPlannerForDate (savePlannerDay planner date day) recurring date2).tasks
          ∧ t.sourceRecurringId = some R) := by
  refine ⟨?_, ?_, ?_⟩
  · intro t ht hsrc
    obtain ⟨tt, htt, httdel, httsrc⟩ := htomb
    simp only [expandDay] at ht
    rcases List.mem_append.mp ht with hl | hr
    · have hf := List.mem_filter.mp hl
      exact ⟨hf.1, by simpa using hf.2⟩
    · obtain ⟨item, hitem, rfl⟩ := List.mem_map.mp hr
      have hid : item.id = R := by simpa [mkVirtualTask] using hsrc
      have hq := (List.mem_filter.mp hitem).2
      rw [Bool.and_eq_true] at hq
      have hnone := hq.2
      rw [Bool.not_eq_true'] at hnone
      rw [List.any_eq_false] at hnone
      have hthis : (tt.deleted && tt.sourceRecurringId == some item.id) = true := by
        simp [httdel, httsrc, hid]
      exact absurd hthis (hnone tt htt)
  · intro date2 hne
    unfold getPlannerForDate
    rw [lookup_savePlannerDay_ne planner date date2 day hne]
  · intro date2 r hne hr hid harch hmatch hlook
    unfold getPlannerForDate
    rw [lookup_savePlannerDay_ne planner date date2 day hne, hlook]
    refine ⟨mkVirtualTask date2 r, ?_, by simp [mkVirtualTask, hid]⟩
    simp only [expandDay, Option.getD]
    refine List.mem_append.mpr (Or.inr ?_)
    refine List.mem_map.mpr ⟨r, ?_, rfl⟩
    exact List.mem_filter.mpr ⟨List.mem_filter.mpr ⟨hr, by simp [harch, hmatch]⟩,
      by simp [persistedRecurringIds]⟩

theorem c4_witness :
    ∃ t, t ∈ (getPlannerForDate (savePlannerDay [] "2024-02-01" { tasks := [c4Tomb] })
        [c4Rec] "2024-02-08").tasks
      ∧ t.sourceRecurringId = some "R" := by
  have h := c4_claim { tasks := [c4Tomb] } [c4Rec] [] "2024-02-01" "R"
    ⟨c4Tomb, by simp, rfl, rfl⟩
  exact h.2.2 "2024-02-08" c4Rec (by decide) (by simp) rfl rfl (by rfl) rfl

theorem countP_id_le_one_of_nodup (recurring : List RecurringTask) (R : String)
    (h : (recurring.map (fun r => r.id)).Nodup) :
    recurring.countP (fun r => r.id == R) ≤ 1 := by
  induction recurring with
  | nil => simp
  | cons r rest ih =>
    rw [List.map_cons, List.nodup_cons] at h
    rw [List.countP_cons]
    rcases hr : (r.id == R) with _ | _
    · simpa [hr] using ih h.2
    · have hR : r.id = R := by simpa using hr
      have hzero : rest.countP (fun x => x.id == R) = 0 := by
        rw [List.countP_eq_zero]
        intro a ha hcontra
        have haid : a.id = R := by simpa using hcontra
        exact h.1 (List.mem_map.mpr ⟨a, ha, haid.trans hR.symm⟩)
      simp [hzero, hr]

/-- C5 (amended): with pairwise-distinct, non-empty recurring-task ids (the
data model's identifier well-formedness) and at most one non-deleted
persisted instance per `sourceRecurringId`, expansion is idempotent
materialization: every output task is either a persisted task or a virtual
instance whose id is the deterministic function
`vrt_${recurringId}_${date}` of its definition and the date, and each
recurring id contributes at most one output task.  (Expanding twice with the
same inputs trivially yields the same list, `expandDay` being a pure
function.) -/
theorem c5_claim (day : PlannerDay) (recurring : List RecurringTask) (date : String)
    (hnodup : (recurring.map (fun r => r.id)).Nodup)
    (hids : ∀ r, r ∈ recurring → r.id ≠ "")
    (hday : ∀ R : String,
      day.tasks.countP (fun t => !t.deleted && t.sourceRecurringId == some R) ≤ 1) :
    (∀ t, t ∈ (expandDay day recurring date).tasks →
        t ∈ day.tasks ∨ ∃ r, r ∈ recurring ∧ recurringMatchesDate r date = true
          ∧ t.id = "vrt_" ++ r.id ++ "_" ++ date ∧ t.sourceRecurringId = some r.id
          ∧ t.completed = false)
  ∧ (∀ R : String, (expandDay day recurring date).tasks.countP
        (fun t => t.sourceRecurringId == some R) ≤ 1) := by
  constructor
  · intro t ht
    simp only [expandDay] at ht
    rcases List.mem_append.mp ht with hl | hr
    · exact Or.inl (List.mem_filter.mp hl).1
    · obtain ⟨item, hitem, rfl⟩ := List.mem_map.mp hr
      have hact := List.mem_filter.mp (List.mem_filter.mp hitem).1
      have hmatch : recurringMatchesDate item date = true := by
        have := hact.2
        rw [Bool.and_eq_true] at this
        exact this.2
      exact Or.inr ⟨item, hact.1, hmatch, rfl, rfl, rfl⟩
  · intro R
    simp only [expandDay]
    rw [List.countP_append]
    have hpers : (day.tasks.filter (fun t => !t.deleted)).countP
        (fun t => t.sourceRecurringId == some R)
        = day.tasks.countP (fun t => !t.deleted && t.sourceRecurringId == some R) := by
      rw [List.countP_filter]
      exact List.countP_congr (fun a _ => by
        constructor <;> intro h' <;> simpa [Bool.and_comm] using h')
    have hvirt : ∀ (L : List RecurringTask),
        (L.map (mkVirtualTask date)).countP (fun t => t.sourceRecurringId == some R)
        = L.countP (fun item => item.id == R) := by
      intro L
      rw [List.countP_map]
      exact List.countP_congr (fun a _ => by simp [Function.comp, mkVirtualTask])
    rw [hpers, hvirt]
    by_cases hex : day.tasks.any (fun t => !t.deleted && t.sourceRecurringId == some R) = true
    · obtain ⟨t0, ht0, hp0⟩ := List.any_eq_true.mp hex
      rw [Bool.and_eq_true] at hp0
      have hsrc0 : t0.sourceRecurringId = some R := by simpa using hp0.2
      have hvz : ((recurring.filter
          (fun item => !item.archived && recurringMatchesDate item date)).filter
          (fun item => !(persistedRecurringIds day.tasks).contains item.id
            && !day.tasks.any (fun t => t.deleted && t.sourceRecurringId == some item.id))).countP
          (fun item => item.id == R) = 0 := by
        rw [List.countP_eq_zero]
        intro item hitem hcontra
        have hidR : item.id = R := by simpa using hcontra
        by_cases hRe : R = ""
        · have hmem : item ∈ recurring := (List.mem_filter.mp (List.mem_filter.mp hitem).1).1
          exact hids item hmem (by rw [hidR, hRe])
        · have hq := (List.mem_filter.mp hitem).2
          rw [Bool.and_eq_true] at hq
          have hcont := hq.1
          rw [Bool.not_eq_true', List.contains_eq_any_beq, List.any_eq_false] at hcont
          have hmemfm : R ∈ persistedRecurringIds day.tasks := by
            refine List.mem_filterMap.mpr ⟨t0, ht0, ?_⟩
            rw [hsrc0]
            simp [hRe]
          exact absurd (by simp [hidR]) (hcont R hmemfm)
      rw [hvz]
      simpa using hday R
    · have hpz : day.tasks.countP (fun t => !t.deleted && t.sourceRecurringId == some R) = 0 := by
        rw [List.countP_eq_zero]
        intro a ha hcontra
        exact absurd (List.any_eq_true.mpr ⟨a, ha, hcontra⟩) hex
      rw [hpz]
      have h1 : ((recurring.filter
          (fun item => !item.archived && recurringMatchesDate item date)).filter
          (fun item => !(persistedRecurringIds day.tasks).contains item.id
            && !day.tasks.any (fun t => t.deleted && t.sourceRecurringId == some item.id))).countP
          (fun item => item.id == R)
          ≤ recurring.countP (fun item => item.id == R) :=
        le_trans ((List.filter_sublist _).countP_le _)
          ((List.filter_sublist _).countP_le _)
      have h2 := countP_id_le_one_of_nodup recurring R hnodup
      omega

/-- C5 concrete data: two distinct recurring definitions sharing the id `"R"`,
one definition with the empty id, and a live persisted instance tagged with
the empty id. -/
def c5RecA : RecurringTask :=
  { id := "R", title := "Run", priority := .med,
    recurrence := { type := .daily, interval := 1 }, createdAt := 0 }

def c5RecB : RecurringTask :=
  { id := "R", title := "Read", priority := .low,
    recurrence := { type := .daily, interval := 1 }, createdAt := 0 }

def c5RecEmpty : RecurringTask :=
  { id := "", title := "Stretch", priority := .med,
    recurrence := { type := .daily, interval := 1 }, createdAt := 0 }

def c5LiveEmpty : PlannerTask :=
  { id := "k1", title := "Stretch", priority := .med,
    sourceRecurringId := some "", deleted := false }

/-- C5 counterexample: the claim's "at most one visible instance per
RecurringTask id" fails without identifier well-formedness, even though its
own proviso (at most one non-deleted persisted instance per
`sourceRecurringId`) holds.  With two recurring definitions sharing id `"R"`
an empty day expands to **two** `R`-instances; with an empty-string recurring
id, the persisted live instance is invisible to the truthiness-filtered
"already present" set and a duplicate virtual instance is synthesized. -/
theorem c5_counterexample :
    ((expandDay { tasks := [] } [c5RecA, c5RecB] "1970-01-02").tasks.countP
        (fun t => t.sourceRecurringId == some "R") = 2)
  ∧ ((expandDay { tasks := [c5LiveEmpty] } [c5RecEmpty] "1970-01-02").tasks.countP
        (fun t => t.sourceRecurringId == some "") = 2)
  ∧ ([c5LiveEmpty].countP (fun t => !t.deleted && t.sourceRecurringId == some "") = 1) := by
  decide

theorem c5_witness :
    (expandDay { tasks := [] } [c5RecA] "1970-01-02").tasks.countP
      (fun t => t.sourceRecurringId == some "R") ≤ 1 := by
  have h := c5_claim { tasks := [] } [c5RecA] "1970-01-02"
    (by decide)
    (by intro r hr; rw [List.mem_singleton] at hr; rw [hr]; decide)
    (by intro R; simp)
  exact h.2 "R"

/-! ## Hierarchy migration (`migrateHierarchyData` in `server/src/dataStore.ts`) -/

def UNASSIGNED_GOAL_ID : String := "g-unassigned"
def UNASSIGNED_PROJECT_ID : String := "p-unassigned"
def UNASSIGNED_TOPIC_ID : String := "t-unassigned"

/-- Replace the first element satisfying `p` with `y` (the pure counterpart of
the source's in-place mutation of the object returned by `Array.find`). -/
def replaceFirst (p : α → Bool) (y : α) : List α → List α
  | [] => []
  | x :: xs => if p x then y :: xs else x :: replaceFirst p y xs

/-- Stage 1 of the migrator: ensure the Unassigned goal exists
(`goals.find(by id) ?? goals.find(by name)`), un-archive it if archived,
create it if absent.  Returns the updated goal list and the
`unassignedGoal` the source's local variable refers to. -/
def goalStage (now : String) (gs : List Goal) : List Goal × Goal :=
  match gs.find? (fun g => g.id == UNASSIGNED_GOAL_ID) with
  | some g =>
    if g.archived then
      let g2 := { g with archived := false }
      (replaceFirst (fun x => x.id == UNASSIGNED_GOAL_ID) g2 gs, g2)
    else (gs, g)
  | none =>
    match gs.find? (fun g => g.name == "Unassigned") with
    | some g =>
      if g.archived then
        let g2 := { g with archived := false }
        (replaceFirst (fun x => x.name == "Unassigned") g2 gs, g2)
      else (gs, g)
    | none =>
      let fresh : Goal :=
        { id := UNASSIGNED_GOAL_ID, name := "Unassigned", description := "",
          createdAt := now, archived := false }
      (gs ++ [fresh], fresh)

/-- Stage 2: ensure the Unassigned project exists (`find(by id) ?? find(by
name && goalId === unassignedGoal.id)`); when found, rebind its `goalId` to a
still-valid goal id and un-archive it (the source's else-branch runs both
assignments unconditionally); create it when absent. -/
def projStage (now : String) (goalIds : List String) (ug : Goal)
    (ps : List Project) : List Project × Project :=
  match ps.find? (fun p => p.id == UNASSIGNED_PROJECT_ID) with
  | some p =>
    let p2 := { p with
      goalId := if goalIds.contains p.goalId then p.goalId else ug.id,
      archived := false }
    (replaceFirst (fun x => x.id == UNASSIGNED_PROJECT_ID) p2 ps, p2)
  | none =>
    match ps.find? (fun p => p.name == "Unassigned" && p.goalId == ug.id) with
    | some p =>
      let p2 := { p with
        goalId := if goalIds.contains p.goalId then p.goalId else ug.id,
        archived := false }
      (replaceFirst (fun x => x.name == "Unassigned" && x.goalId == ug.id) p2 ps, p2)
    | none =>
      let fresh : Project :=
        { id := UNASSIGNED_PROJECT_ID, goalId := ug.id, name := "Unassigned",
          description := "", color := "#64748b", createdAt := now, archived := false }
      (ps ++ [fresh], fresh)

/-- Stage 5: ensure the Unassigned topic exists (`find(by id) ?? find(by
name && projectId === unassignedProject.id)`); when found, rebind its
`projectId` to the Unassigned project and un-archive it; create it when
absent.  In the source this runs **after** the dangling-topic rebinding
loop. -/
def topicStage (now : String) (up : Project) (ts : List Topic) : List Topic × Topic :=
  match ts.find? (fun t => t.id == UNASSIGNED_TOPIC_ID) with
  | some t =>
    let t2 := { t with projectId := up.id, archived := false }
    (replaceFirst (fun x => x.id == UNASSIGNED_TOPIC_ID) t2 ts, t2)
  | none =>
    match ts.find? (fun t => t.name == "Unassigned Topic" && t.projectId == up.id) with
    | some t =>
      let t2 := { t with projectId := up.id, archived := false }
      (replaceFirst (fun x => x.name == "Unassigned Topic" && x.projectId == up.id) t2 ts, t2)
    | none =>
      let fresh : Topic :=
        { id := UNASSIGNED_TOPIC_ID, projectId := up.id, name := "Unassigned Topic",
          color := "#64748b", createdAt := now, archived := false }
      (ts ++ [fresh], fresh)

/-- `new Map(topics.map((t) => [t.id, t])).get(tid)` — JavaScript `Map`
keeps the **last** entry for a duplicated key, hence the reversed search. -/
def topicLookup (ts : List Topic) (tid : String) : Option Topic :=
  ts.reverse.find? (fun t => t.id == tid)

/-- `new Map(projects.map((p) => [p.id, p])).get(pid)`, last entry wins. -/
def projectLookup (ps : List Project) (pid : String) : Option Project :=
  ps.reverse.find? (fun p => p.id == pid)

/-- The per-session body of the migrator's final loop.  `ts`/`ps` are the
already-repaired topic and project lists (the source's `topicMap` /
`projectMap`), `ut`/`up` the Unassigned topic/project.  Note the JavaScript
truthiness: `!session.topicId` is true for `null` and for `""`. -/
def sessStep (ts : List Topic) (ps : List Project) (ut : Topic) (up : Project)
    (s : SessionRecord) : SessionRecord :=
  let cond1 : Bool :=
    s.type == .focus &&
      (match s.topicId with
       | none => true
       | some t => if t == "" then true else !(topicLookup ts t).isSome)
  let s1 := if cond1 then { s with topicId := some ut.id } else s
  let cond2 : Bool :=
    match s1.topicId with
    | none => false
    | some t => t != "" && !(topicLookup ts t).isSome
  let s2 := if cond2 then { s1 with topicId := some ut.id } else s1
  match s2.topicId with
  | some t =>
    if t != "" then
      let topic := (topicLookup ts t).getD ut
      let project := (projectLookup ps topic.projectId).getD up
      { s2 with topicId := some topic.id, topicName := some topic.name,
                projectId := some project.id, goalId := some project.goalId }
    else
      { s2 with projectId := none, goalId := none, topicName := s2.topicName }
  | none =>
    { s2 with projectId := none, goalId := none, topicName := s2.topicName }

/-- The goal/project/topic/session collections the migrator operates on. -/
structure Collections where
  goals : List Goal
  projects : List Project
  topics : List Topic
  sessions : List SessionRecord
deriving DecidableEq, Repr

/-- `migrateHierarchyData` from `server/src/dataStore.ts`.  `now` is the
`new Date().toISOString()` timestamp stamped on any created placeholder
(threaded explicitly to keep the function pure).  Stage order follows the
source exactly: fix/create Unassigned goal; fix/create Unassigned project;
rebind dangling project goalIds; rebind dangling topic projectIds (against
the post-repair project ids); fix/create Unassigned topic; rewrite every
session from the final topic/project maps. -/
def migrateHierarchyData (now : String) (input : Collections) : Collections :=
  let gsug := goalStage now input.goals
  let gs := gsug.1
  let ug := gsug.2
  let goalIds := gs.map (fun g => g.id)
  let psup := projStage now goalIds ug input.projects
  let up := psup.2
  let ps := psup.1.map (fun p => if goalIds.contains p.goalId then p else { p with goalId := ug.id })
  let projectIds := ps.map (fun p => p.id)
  let ts1 := input.topics.map
    (fun t => if projectIds.contains t.projectId then t else { t with projectId := up.id })
  let tsut := topicStage now up ts1
  let ts := tsut.1
  let ut := tsut.2
  let ss := input.sessions.map (sessStep ts ps ut up)
  { goals := gs, projects := ps, topics := ts, sessions := ss }

/-- The Unassigned (goal, project, topic) triple the migrator designates for a
given input — the values of the source's `unassignedGoal` /
`unassignedProject` / `unassignedTopic` variables at the end of the pass. -/
def migrateUnassigned (now : String) (input : Collections) : Goal × Project × Topic :=
  let gsug := goalStage now input.goals
  let gs := gsug.1
  let ug := gsug.2
  let goalIds := gs.map (fun g => g.id)
  let psup := projStage now goalIds ug input.projects
  let up := psup.2
  let ps := psup.1.map (fun p => if goalIds.contains p.goalId then p else { p with goalId := ug.id })
  let projectIds := ps.map (fun p => p.id)
  let ts1 := input.topics.map
    (fun t => if projectIds.contains t.projectId then t else { t with projectId := up.id })
  let tsut := topicStage now up ts1
  (ug, up, tsut.2)

/-- C2 failing input: the lone goal carries the well-known unassigned id;
project `a` is named "Unassigned" with a dangling `goalId`, project `b` is
named "Unassigned" with a valid `goalId`. -/
def c2Goal : Goal := { id := "g-unassigned", name := "Career" }
def c2ProjA : Project := { id := "a", goalId := "nope", name := "Unassigned" }
def c2ProjB : Project := { id := "b", goalId := "g-unassigned", name := "Unassigned" }

def c2Input : Collections :=
  { goals := [c2Goal], projects := [c2ProjA, c2ProjB], topics := [], sessions := [] }

/-- C2: the migrator is **not** idempotent.  On `c2Input`, the first pass
picks project `b` as the Unassigned project (the only name-match with a valid
`goalId`) and creates the Unassigned topic bound to `b`; the same pass also
repairs project `a`'s dangling `goalId`.  On the second pass project `a` now
satisfies the name-and-goalId match and, being first, becomes the Unassigned
project, so the Unassigned topic's `projectId` is rewritten from `"b"` to
`"a"`: `migrate(migrate(E)) ≠ migrate(E)`. -/
theorem c2_claim :
    migrateHierarchyData "t2" (migrateHierarchyData "t1" c2Input)
      ≠ migrateHierarchyData "t1" c2Input := by
  decide

/-! ### List infrastructure for the migration proofs -/

theorem length_replaceFirst (p : α → Bool) (y : α) (l : List α) :
    (replaceFirst p y l).length = l.length := by
  induction l with
  | nil => rfl
  | cons x xs ih =>
    unfold replaceFirst
    split
    · simp
    · simpa using ih

theorem mem_replaceFirst_self (p : α → Bool) (y : α) (l : List α)
    (h : (l.find? p).isSome = true) : y ∈ replaceFirst p y l := by
  induction l with
  | nil => simp at h
  | cons x xs ih =>
    unfold replaceFirst
    rcases hx : p x with _ | _
    · rw [if_neg (by simp [hx])]
      refine List.mem_cons_of_mem x (ih ?_)
      rwa [List.find?_cons_of_neg _ (by simp [hx])] at h
    · rw [if_pos rfl]
      exact List.mem_cons_self y _

theorem replaceFirst_forall2 (p : α → Bool) (y : α) (l : List α) :
    List.Forall₂ (fun a b => b = a ∨ (b = y ∧ l.find? p = some a)) l (replaceFirst p y l) := by
  induction l with
  | nil => exact List.Forall₂.nil
  | cons x xs ih =>
    unfold replaceFirst
    rcases hx : p x with _ | _
    · rw [if_neg (by simp [hx])]
      refine List.Forall₂.cons (Or.inl rfl) (ih.imp ?_)
      intro a b hab
      rcases hab with h1 | ⟨h1, h2⟩
      · exact Or.inl h1
      · exact Or.inr ⟨h1, by rwa [List.find?_cons_of_neg _ (by simp [hx])]⟩
    · rw [if_pos rfl]
      refine List.Forall₂.cons (Or.inr ⟨rfl, List.find?_cons_of_pos _ hx⟩) ?_
      exact List.forall₂_same.mpr (fun a _ => Or.inl rfl)

theorem map_replaceFirst_eq (f : α → β) (p : α → Bool) (y : α) (l : List α)
    (h : ∀ a, l.find? p = some a → f y = f a) :
    (replaceFirst p y l).map f = l.map f := by
  induction l with
  | nil => rfl
  | cons x xs ih =>
    unfold replaceFirst
    rcases hx : p x with _ | _
    · rw [if_neg (by simp [hx])]
      rw [List.map_cons, List.map_cons,
        ih (fun a ha => h a (by rwa [List.find?_cons_of_neg _ (by simp [hx])]))]
    · rw [if_pos rfl, List.map_cons, List.map_cons,
        h x (List.find?_cons_of_pos _ hx)]

/-! ### Stage lemmas for the migrator -/

theorem goalStage_mem (now : String) (gs : List Goal) :
    (goalStage now gs).2 ∈ (goalStage now gs).1
    ∧ (goalStage now gs).2.archived = false := by
  constructor
  · rcases h1 : gs.find? (fun g => g.id == UNASSIGNED_GOAL_ID) with _ | g
    · rcases h2 : gs.find? (fun g => g.name == "Unassigned") with _ | g
      · simp only [goalStage, h1, h2]
        exact List.mem_append_right _ (List.mem_singleton.mpr rfl)
      · rcases ha : g.archived with _ | _
        · simp only [goalStage, h1, h2, ha, Bool.false_eq_true, if_false]
          exact List.mem_of_find?_eq_some h2
        · simp only [goalStage, h1, h2, ha, if_true]
          exact mem_replaceFirst_self _ _ _ (by rw [h2]; rfl)
    · rcases ha : g.archived with _ | _
      · simp only [goalStage, h1, ha, Bool.false_eq_true, if_false]
        exact List.mem_of_find?_eq_some h1
      · simp only [goalStage, h1, ha, if_true]
        exact mem_replaceFirst_self _ _ _ (by rw [h1]; rfl)
  · rcases h1 : gs.find? (fun g => g.id == UNASSIGNED_GOAL_ID) with _ | g
    · rcases h2 : gs.find? (fun g => g.name == "Unassigned") with _ | g
      · simp [goalStage, h1, h2]
      · rcases ha : g.archived with _ | _
        · simp [goalStage, h1, h2, ha]
        · simp [goalStage, h1, h2, ha]
    · rcases ha : g.archived with _ | _
      · simp [goalStage, h1, ha]
      · simp [goalStage, h1, ha]

theorem goalStage_ids (now : String) (gs : List Goal) :
    ∀ x, x ∈ (goalStage now gs).1.map (fun g => g.id)
      → x ∈ gs.map (fun g => g.id) ∨ x = (goalStage now gs).2.id := by
  intro x hx
  rcases h1 : gs.find? (fun g => g.id == UNASSIGNED_GOAL_ID) with _ | g
  · rcases h2 : gs.find? (fun g => g.name == "Unassigned") with _ | g
    · simp only [goalStage, h1, h2] at hx ⊢
      rw [List.map_append] at hx
      rcases List.mem_append.mp hx with h | h
      · exact Or.inl h
      · simp only [List.map_cons, List.map_nil, List.mem_singleton] at h
        exact Or.inr h
    · rcases ha : g.archived with _ | _
      · simp only [goalStage, h1, h2, ha, Bool.false_eq_true, if_false] at hx ⊢
        exact Or.inl hx
      · simp only [goalStage, h1, h2, ha, if_true] at hx ⊢
        rw [map_replaceFirst_eq (fun g : Goal => g.id) _ _ _
          (fun a ha2 => by rw [h2] at ha2; cases ha2; rfl)] at hx
        exact Or.inl hx
  · rcases ha : g.archived with _ | _
    · simp only [goalStage, h1, ha, Bool.false_eq_true, if_false] at hx ⊢
      exact Or.inl hx
    · simp only [goalStage, h1, ha, if_true] at hx ⊢
      rw [map_replaceFirst_eq (fun g : Goal => g.id) _ _ _
        (fun a ha2 => by rw [h1] at ha2; cases ha2; rfl)] at hx
      exact Or.inl hx

theorem projStage_mem (now : String) (goalIds : List String) (ug : Goal)
    (ps : List Project) (hug : goalIds.contains ug.id = true) :
    (projStage now goalIds ug ps).2 ∈ (projStage now goalIds ug ps).1
    ∧ (projStage now goalIds ug ps).2.archived = false
    ∧ goalIds.contains (projStage now goalIds ug ps).2.goalId = true := by
  refine ⟨?_, ?_, ?_⟩
  · rcases h1 : ps.find? (fun p => p.id == UNASSIGNED_PROJECT_ID) with _ | p
    · rcases h2 : ps.find? (fun p => p.name == "Unassigned" && p.goalId == ug.id) with _ | p
      · simp only [projStage, h1, h2]
        exact List.mem_append_right _ (List.mem_singleton.mpr rfl)
      · simp only [projStage, h1, h2]
        exact mem_replaceFirst_self _ _ _ (by rw [h2]; rfl)
    · simp only [projStage, h1]
      exact mem_replaceFirst_self _ _ _ (by rw [h1]; rfl)
  · rcases h1 : ps.find? (fun p => p.id == UNASSIGNED_PROJECT_ID) with _ | p
    · rcases h2 : ps.find? (fun p => p.name == "Unassigned" && p.goalId == ug.id) with _ | p
      · simp [projStage, h1, h2]
      · simp [projStage, h1, h2]
    · simp [projStage, h1]
  · rcases h1 : ps.find? (fun p => p.id == UNASSIGNED_PROJECT_ID) with _ | p
    · rcases h2 : ps.find? (fun p => p.name == "Unassigned" && p.goalId == ug.id) with _ | p
      · simp only [projStage, h1, h2]
        exact hug
      · simp only [projStage, h1, h2]
        rcases hc : goalIds.contains p.goalId with _ | _
        · rw [if_neg (by simp)]
          exact hug
        · rw [if_pos rfl]
          exact hc
    · simp only [projStage, h1]
      rcases hc : goalIds.contains p.goalId with _ | _
      · rw [if_neg (by simp)]
        exact hug
      · rw [if_pos rfl]
        exact hc

theorem topicStage_mem (now : String) (up : Project) (ts : List Topic) :
    (topicStage now up ts).2 ∈ (topicStage now up ts).1
    ∧ (topicStage now up ts).2.archived = false
    ∧ (topicStage now up ts).2.projectId = up.id := by
  refine ⟨?_, ?_, ?_⟩
  · rcases h1 : ts.find? (fun t => t.id == UNASSIGNED_TOPIC_ID) with _ | t
    · rcases h2 : ts.find? (fun t => t.name == "Unassigned Topic" && t.projectId == up.id) with _ | t
      · simp only [topicStage, h1, h2]
        exact List.mem_append_right _ (List.mem_singleton.mpr rfl)
      · simp only [topicStage, h1, h2]
        exact mem_replaceFirst_self _ _ _ (by rw [h2]; rfl)
    · simp only [topicStage, h1]
      exact mem_replaceFirst_self _ _ _ (by rw [h1]; rfl)
  · rcases h1 : ts.find? (fun t => t.id == UNASSIGNED_TOPIC_ID) with _ | t
    · rcases h2 : ts.find? (fun t => t.name == "Unassigned Topic" && t.projectId == up.id) with _ | t
      · simp [topicStage, h1, h2]
      · simp [topicStage, h1, h2]
    · simp [topicStage, h1]
  · rcases h1 : ts.find? (fun t => t.id == UNASSIGNED_TOPIC_ID) with _ | t
    · rcases h2 : ts.find? (fun t => t.name == "Unassigned Topic" && t.projectId == up.id) with _ | t
      · simp [topicStage, h1, h2]
      · simp [topicStage, h1, h2]
    · simp [topicStage, h1]

/-! ### Per-session lemmas for the migrator's final loop -/

theorem topicLookup_id (ts : List Topic) (tid : String) (topic : Topic)
    (h : topicLookup ts tid = some topic) : topic.id = tid := by
  have := List.find?_some h
  simpa using this

theorem topicLookup_isSome_of_mem (ts : List Topic) (ut : Topic) (h : ut ∈ ts) :
    (topicLookup ts ut.id).isSome = true := by
  rw [topicLookup, List.find?_isSome]
  exact ⟨ut, List.mem_reverse.mpr h, by simp⟩

/-- Any session the migrator's loop rebinds (focus with falsy or unresolvable
topicId, or any session with a truthy unresolvable topicId) ends with
`topicId = unassignedTopic.id`. -/
theorem sessStep_rebound (ts : List Topic) (ps : List Project) (ut : Topic)
    (up : Project) (s : SessionRecord) (hut : ut ∈ ts)
    (h : (s.type = .focus ∧ truthyStr s.topicId = false)
       ∨ (∃ t, s.topicId = some t ∧ t ≠ "" ∧ topicLookup ts t = none)) :
    (sessStep ts ps ut up s).topicId = some ut.id := by
  rcases hl : topicLookup ts ut.id with _ | topic
  · exact absurd (topicLookup_isSome_of_mem ts ut hut) (by simp [hl])
  · have hlid := topicLookup_id ts ut.id topic hl
    by_cases he : ut.id = ""
    · rcases h with ⟨hty, hfal⟩ | ⟨t, htid, htne, htl⟩
      · rcases hn : s.topicId with _ | t
        · simp [sessStep, hty, hn, he]
        · have ht0 : t = "" := by
            rw [hn] at hfal
            simpa [truthyStr] using hfal
          simp [sessStep, hty, hn, ht0, he]
      · rcases hty : s.type with _ | _
        · simp [sessStep, hty, htid, htne, htl, he, hl, hlid]
        · simp [sessStep, hty, htid, htne, htl, he, hl, hlid]
    · rcases h with ⟨hty, hfal⟩ | ⟨t, htid, htne, htl⟩
      · rcases hn : s.topicId with _ | t
        · simp [sessStep, hty, hn, he, hl, hlid]
        · have ht0 : t = "" := by
            rw [hn] at hfal
            simpa [truthyStr] using hfal
          simp [sessStep, hty, hn, ht0, he, hl, hlid]
      · rcases hty : s.type with _ | _
        · simp [sessStep, hty, htid, htne, htl, he, hl, hlid]
        · simp [sessStep, hty, htid, htne, htl, he, hl, hlid]

/-- A session whose truthy `topicId` resolves in the topic map is rewritten
from the resolved Topic→Project chain (with the source's `?? unassigned`
fallbacks). -/
theorem sessStep_resolved (ts : List Topic) (ps : List Project) (ut : Topic)
    (up : Project) (s : SessionRecord) (t : String) (topic : Topic)
    (htid : s.topicId = some t) (htne : t ≠ "") (hl : topicLookup ts t = some topic) :
    sessStep ts ps ut up s =
      { s with topicId := some topic.id, topicName := some topic.name,
               projectId := some ((projectLookup ps topic.projectId).getD up).id,
               goalId := some ((projectLookup ps topic.projectId).getD up).goalId } := by
  rcases hty : s.type with _ | _ <;> simp [sessStep, hty, htid, htne, hl]

/-- A non-focus session with falsy `topicId` gets `projectId = null` and
`goalId = null`, with `topicId` and `topicName` untouched. -/
theorem sessStep_break_null (ts : List Topic) (ps : List Project) (ut : Topic)
    (up : Project) (s : SessionRecord)
    (hty : s.type ≠ .focus) (hfal : truthyStr s.topicId = false) :
    (sessStep ts ps ut up s).projectId = none
    ∧ (sessStep ts ps ut up s).goalId = none
    ∧ (sessStep ts ps ut up s).topicId = s.topicId
    ∧ (sessStep ts ps ut up s).topicName = s.topicName := by
  rcases hb : s.type with _ | _
  · exact absurd hb hty
  · rcases hn : s.topicId with _ | t
    · simp [sessStep, hb, hn]
    · have ht0 : t = "" := by
        rw [hn] at hfal
        simpa [truthyStr] using hfal
      simp [sessStep, hb, hn, ht0]

theorem take_all_of_length_eq (l : List α) (n : Nat) (h : l.length = n) :
    l.take n = l := by
  rw [← h]
  exact List.take_length l

/-- The project pipeline (Unassigned-project stage followed by the
dangling-goalId rebinding loop) sends every project whose `goalId` is not
among `inputIds` to a project with `goalId = ug.id`, position by position. -/
theorem projPipeline_forall2 (now : String) (goalIds inputIds : List String)
    (ug : Goal) (inputProjects : List Project)
    (hres : ∀ x, x ∈ goalIds → x ∈ inputIds ∨ x = ug.id)
    (hugid : goalIds.contains ug.id = true) :
    List.Forall₂ (fun (pr : Project) (q : Project) =>
        pr.goalId ∉ inputIds → q.goalId = ug.id)
      inputProjects
      (((projStage now goalIds ug inputProjects).1.map (fun p =>
          if goalIds.contains p.goalId then p
          else { p with goalId := ug.id })).take inputProjects.length) := by
  have hfix : ∀ a : Project, a.goalId ∉ inputIds →
      (if goalIds.contains a.goalId then a
       else { a with goalId := ug.id }).goalId = ug.id := by
    intro a hyp
    rcases hc : goalIds.contains a.goalId with _ | _
    · rw [if_neg (by simp)]
    · rw [if_pos rfl]
      rcases hres a.goalId (by simpa using hc) with h | h
      · exact absurd h hyp
      · exact h
  have hcondX : ∀ x : String, x ∉ inputIds →
      (if goalIds.contains x then x else ug.id) = ug.id := by
    intro x hyp
    rcases hc : goalIds.contains x with _ | _
    · rw [if_neg (by simp)]
    · rw [if_pos rfl]
      rcases hres x (by simpa using hc) with h | h
      · exact absurd h hyp
      · exact h
  rcases h1 : inputProjects.find? (fun p => p.id == UNASSIGNED_PROJECT_ID) with _ | p
  · rcases h2 : inputProjects.find?
        (fun p => p.name == "Unassigned" && p.goalId == ug.id) with _ | p
    · simp only [projStage, h1, h2]
      rw [List.map_append, List.take_left' (by simp)]
      refine List.forall₂_map_right_iff.mpr (List.forall₂_same.mpr ?_)
      intro a _ hyp
      exact hfix a hyp
    · simp only [projStage, h1, h2]
      rw [take_all_of_length_eq _ _ (by simp [length_replaceFirst])]
      refine List.forall₂_map_right_iff.mpr ((replaceFirst_forall2 _ _ _).imp ?_)
      intro a b hab hyp
      rcases hab with hb | ⟨hb, hfind⟩
      · rw [hb]
        exact hfix a hyp
      · rw [h2] at hfind
        injection hfind with hpa
        subst hpa
        rw [hb, hcondX _ hyp]
        simp [hugid]
  · simp only [projStage, h1]
    rw [take_all_of_length_eq _ _ (by simp [length_replaceFirst])]
    refine List.forall₂_map_right_iff.mpr ((replaceFirst_forall2 _ _ _).imp ?_)
    intro a b hab hyp
    rcases hab with hb | ⟨hb, hfind⟩
    · rw [hb]
      exact hfix a hyp
    · rw [h1] at hfind
      injection hfind with hpa
      subst hpa
      rw [hb, hcondX _ hyp]
      simp [hugid]

/-- The topic pipeline (dangling-projectId rebinding loop followed by the
Unassigned-topic stage) sends every topic whose `projectId` is not among the
repaired `projectIds` to a topic with `projectId = up.id`, position by
position. -/
theorem topicPipeline_forall2 (now : String) (projectIds : List String)
    (up : Project) (inputTopics : List Topic) :
    List.Forall₂ (fun (tr : Topic) (q : Topic) =>
        tr.projectId ∉ projectIds → q.projectId = up.id)
      inputTopics
      ((topicStage now up (inputTopics.map (fun t =>
          if projectIds.contains t.projectId then t
          else { t with projectId := up.id }))).1.take inputTopics.length) := by
  have hfixT : ∀ a : Topic, a.projectId ∉ projectIds →
      (if projectIds.contains a.projectId then a
       else { a with projectId := up.id }).projectId = up.id := by
    intro a hyp
    rcases hc : projectIds.contains a.projectId with _ | _
    · rw [if_neg (by simp)]
    · exact absurd (by simpa using hc) hyp
  rcases h1 : (inputTopics.map (fun t =>
      if projectIds.contains t.projectId then t
      else { t with projectId := up.id })).find?
      (fun t => t.id == UNASSIGNED_TOPIC_ID) with _ | t
  · rcases h2 : (inputTopics.map (fun t =>
        if projectIds.contains t.projectId then t
        else { t with projectId := up.id })).find?
        (fun t => t.name == "Unassigned Topic" && t.projectId == up.id) with _ | t
    · simp only [topicStage, h1, h2]
      rw [List.take_left' (by simp)]
      refine List.forall₂_map_right_iff.mpr (List.forall₂_same.mpr ?_)
      intro a _ hyp
      exact hfixT a hyp
    · simp only [topicStage, h1, h2]
      rw [take_all_of_length_eq _ _ (by simp [length_replaceFirst])]
      have F := replaceFirst_forall2
        (fun x => x.name == "Unassigned Topic" && x.projectId == up.id)
        { t with projectId := up.id, archived := false }
        (inputTopics.map (fun t =>
          if projectIds.contains t.projectId then t
          else { t with projectId := up.id }))
      rw [List.forall₂_map_left_iff] at F
      refine F.imp ?_
      intro a b hab hyp
      rcases hab with hb | ⟨hb, _⟩
      · rw [hb]
        exact hfixT a hyp
      · rw [hb]
  · simp only [topicStage, h1]
    rw [take_all_of_length_eq _ _ (by simp [length_replaceFirst])]
    have F := replaceFirst_forall2
      (fun x => x.id == UNASSIGNED_TOPIC_ID)
      { t with projectId := up.id, archived := false }
      (inputTopics.map (fun t =>
        if projectIds.contains t.projectId then t
        else { t with projectId := up.id }))
    rw [List.forall₂_map_left_iff] at F
    refine F.imp ?_
    intro a b hab hyp
    rcases hab with hb | ⟨hb, _⟩
    · rw [hb]
      exact hfixT a hyp
    · rw [hb]

/-- C7 (amended): positionally, in the migrator's output: every Project whose
input `goalId` named no input Goal ends with `goalId` = the Unassigned Goal's
id; every Topic whose input `projectId` names no output (repaired) Project
ends with `projectId` = the Unassigned Project's id; every **focus** Session
with falsy (null/empty) or unresolvable `topicId`, and every Session whose
non-empty `topicId` resolves to no topic, ends with `topicId` = the
Unassigned Topic's id; every Session whose non-empty `topicId` resolves gets
`topicName`/`projectId`/`goalId` overwritten from the resolved Topic→Project
chain; and every non-focus Session with falsy `topicId` ends with
`projectId = null` and `goalId = null`.  (The claim's unconditional "every
Session whose topicId named no Topic is rebound" fails for break sessions
with an empty-string topicId; see `c7_counterexample`.) -/
theorem c7_claim (now : String) (input : Collections) :
    (List.Forall₂ (fun (pr : Project) (q : Project) =>
        pr.goalId ∉ input.goals.map (fun g => g.id) →
        q.goalId = (migrateUnassigned now input).1.id)
      input.projects
      ((migrateHierarchyData now input).projects.take input.projects.length))
  ∧ (List.Forall₂ (fun (tr : Topic) (q : Topic) =>
        tr.projectId ∉ (migrateHierarchyData now input).projects.map (fun p => p.id) →
        q.projectId = (migrateUnassigned now input).2.1.id)
      input.topics
      ((migrateHierarchyData now input).topics.take input.topics.length))
  ∧ (List.Forall₂ (fun (s : SessionRecord) (q : SessionRecord) =>
        ((s.type = .focus ∧ truthyStr s.topicId = false)
          ∨ (∃ t, s.topicId = some t ∧ t ≠ "" ∧
              topicLookup (migrateHierarchyData now input).topics t = none)) →
        q.topicId = some (migrateUnassigned now input).2.2.id)
      input.sessions (migrateHierarchyData now input).sessions)
  ∧ (List.Forall₂ (fun (s : SessionRecord) (q : SessionRecord) =>
        ∀ t topic proj, s.topicId = some t → t ≠ "" →
          topicLookup (migrateHierarchyData now input).topics t = some topic →
          (projectLookup (migrateHierarchyData now input).projects topic.projectId).getD (migrateUnassigned now input).2.1 = proj →
          q = { s with topicId := some topic.id, topicName := some topic.name, projectId := some proj.id, goalId := some proj.goalId })
      input.sessions (migrateHierarchyData now input).sessions)
  ∧ (List.Forall₂ (fun (s : SessionRecord) (q : SessionRecord) =>
        s.type ≠ .focus → truthyStr s.topicId = false →
        q.projectId = none ∧ q.goalId = none ∧ q.topicId = s.topicId
          ∧ q.topicName = s.topicName)
      input.sessions (migrateHierarchyData now input).sessions) := by
  obtain ⟨hugmem, hugarch⟩ := goalStage_mem now input.goals
  have hugid : ((goalStage now input.goals).1.map (fun g => g.id)).contains
      (goalStage now input.goals).2.id = true := by
    simpa using List.mem_map_of_mem (fun g : Goal => g.id) hugmem
  simp only [migrateHierarchyData, migrateUnassigned]
  refine ⟨?_, ?_, ?_, ?_, ?_⟩
  · exact projPipeline_forall2 now _ _ _ _ (goalStage_ids now input.goals) hugid
  · exact topicPipeline_forall2 now _ _ _
  · refine List.forall₂_map_right_iff.mpr (List.forall₂_same.mpr ?_)
    intro s _ hyp
    exact sessStep_rebound _ _ _ _ s (topicStage_mem now _ _).1 hyp
  · refine List.forall₂_map_right_iff.mpr (List.forall₂_same.mpr ?_)
    intro s _ t topic proj htid htne hl hproj
    rw [← hproj]
    exact sessStep_resolved _ _ _ _ s t topic htid htne hl
  · refine List.forall₂_map_right_iff.mpr (List.forall₂_same.mpr ?_)
    intro s _ hty hfal
    exact sessStep_break_null _ _ _ _ s hty hfal

/-! ### Placeholder-uniqueness support for C8 -/

theorem countP_id_map_fix (goalIds : List String) (ugid : String)
    (l : List Project) (k : String) :
    (l.map (fun p => if goalIds.contains p.goalId then p
        else { p with goalId := ugid })).countP (fun p => p.id == k)
      = l.countP (fun p => p.id == k) := by
  rw [List.countP_map]
  refine List.countP_congr ?_
  intro x _
  by_cases hc : x.goalId ∈ goalIds
  · simp [Function.comp, hc]
  · simp [Function.comp, hc]

theorem goalStage_clean (now : String) (inputGoals : List Goal)
    (hall : inputGoals.all
      (fun g => g.id != UNASSIGNED_GOAL_ID && g.name != "Unassigned") = true) :
    (goalStage now inputGoals).1.countP (fun g => g.id == UNASSIGNED_GOAL_ID) = 1
    ∧ (goalStage now inputGoals).2.id = UNASSIGNED_GOAL_ID := by
  have hf1 : inputGoals.find? (fun g => g.id == UNASSIGNED_GOAL_ID) = none :=
    List.find?_eq_none.mpr (fun x hx => by
      have hx2 := List.all_eq_true.mp hall x hx
      simp only [Bool.and_eq_true, bne_iff_ne, ne_eq] at hx2
      simp [hx2.1])
  have hf2 : inputGoals.find? (fun g => g.name == "Unassigned") = none :=
    List.find?_eq_none.mpr (fun x hx => by
      have hx2 := List.all_eq_true.mp hall x hx
      simp only [Bool.and_eq_true, bne_iff_ne, ne_eq] at hx2
      simp [hx2.2])
  have h0 : inputGoals.countP (fun g => g.id == UNASSIGNED_GOAL_ID) = 0 :=
    List.countP_eq_zero.mpr (fun x hx => by
      have hx2 := List.all_eq_true.mp hall x hx
      simp only [Bool.and_eq_true, bne_iff_ne, ne_eq] at hx2
      simp [hx2.1])
  constructor
  · simp only [goalStage, hf1, hf2]
    rw [List.countP_append, h0]
    rfl
  · simp only [goalStage, hf1, hf2]

theorem projStage_clean (now : String) (goalIds : List String) (ug : Goal)
    (inputProjects : List Project)
    (hall : inputProjects.all
      (fun p => p.id != UNASSIGNED_PROJECT_ID && p.name != "Unassigned") = true) :
    ((projStage now goalIds ug inputProjects).1.map (fun p =>
        if goalIds.contains p.goalId then p
        else { p with goalId := ug.id })).countP (fun p => p.id == UNASSIGNED_PROJECT_ID) = 1
    ∧ (projStage now goalIds ug inputProjects).2.id = UNASSIGNED_PROJECT_ID := by
  have hf1 : inputProjects.find? (fun p => p.id == UNASSIGNED_PROJECT_ID) = none :=
    List.find?_eq_none.mpr (fun x hx => by
      have hx2 := List.all_eq_true.mp hall x hx
      simp only [Bool.and_eq_true, bne_iff_ne, ne_eq] at hx2
      simp [hx2.1])
  have hf2 : inputProjects.find?
      (fun p => p.name == "Unassigned" && p.goalId == ug.id) = none :=
    List.find?_eq_none.mpr (fun x hx => by
      have hx2 := List.all_eq_true.mp hall x hx
      simp only [Bool.and_eq_true, bne_iff_ne, ne_eq] at hx2
      simp [hx2.2])
  have h0 : inputProjects.countP (fun p => p.id == UNASSIGNED_PROJECT_ID) = 0 :=
    List.countP_eq_zero.mpr (fun x hx => by
      have hx2 := List.all_eq_true.mp hall x hx
      simp only [Bool.and_eq_true, bne_iff_ne, ne_eq] at hx2
      simp [hx2.1])
  constructor
  · simp only [projStage, hf1, hf2]
    rw [countP_id_map_fix, List.countP_append, h0]
    rfl
  · simp only [projStage, hf1, hf2]

theorem topicStage_clean (now : String) (projectIds : List String) (up : Project)
    (inputTopics : List Topic)
    (hall : inputTopics.all
      (fun t => t.id != UNASSIGNED_TOPIC_ID && t.name != "Unassigned Topic") = true) :
    (topicStage now up (inputTopics.map (fun t =>
        if projectIds.contains t.projectId then t
        else { t with projectId := up.id }))).1.countP
        (fun t => t.id == UNASSIGNED_TOPIC_ID) = 1
    ∧ (topicStage now up (inputTopics.map (fun t =>
        if projectIds.contains t.projectId then t
        else { t with projectId := up.id }))).2.id = UNASSIGNED_TOPIC_ID := by
  have hf1 : (inputTopics.map (fun t =>
      if projectIds.contains t.projectId then t
      else { t with projectId := up.id })).find?
      (fun t => t.id == UNASSIGNED_TOPIC_ID) = none :=
    List.find?_eq_none.mpr (fun x hx => by
      obtain ⟨a, ha, rfl⟩ := List.mem_map.mp hx
      have hx2 := List.all_eq_true.mp hall a ha
      simp only [Bool.and_eq_true, bne_iff_ne, ne_eq] at hx2
      by_cases hc : a.projectId ∈ projectIds
      · simp [hc, hx2.1]
      · simp [hc, hx2.1])
  have hf2 : (inputTopics.map (fun t =>
      if projectIds.contains t.projectId then t
      else { t with projectId := up.id })).find?
      (fun t => t.name == "Unassigned Topic" && t.projectId == up.id) = none :=
    List.find?_eq_none.mpr (fun x hx => by
      obtain ⟨a, ha, rfl⟩ := List.mem_map.mp hx
      have hx2 := List.all_eq_true.mp hall a ha
      simp only [Bool.and_eq_true, bne_iff_ne, ne_eq] at hx2
      by_cases hc : a.projectId ∈ projectIds
      · simp [hc, hx2.2]
      · simp [hc, hx2.2])
  have h0 : (inputTopics.map (fun t =>
      if projectIds.contains t.projectId then t
      else { t with projectId := up.id })).countP
      (fun t => t.id == UNASSIGNED_TOPIC_ID) = 0 :=
    List.countP_eq_zero.mpr (fun x hx => by
      obtain ⟨a, ha, rfl⟩ := List.mem_map.mp hx
      have hx2 := List.all_eq_true.mp hall a ha
      simp only [Bool.and_eq_true, bne_iff_ne, ne_eq] at hx2
      by_cases hc : a.projectId ∈ projectIds
      · simp [hc, hx2.1]
      · simp [hc, hx2.1])
  constructor
  · simp only [topicStage, hf1, hf2]
    rw [List.countP_append, h0]
    rfl
  · simp only [topicStage, hf1, hf2]

theorem mem_map_fix_of_goalId_valid (goalIds : List String) (ugid : String)
    (l : List Project) (up : Project) (hup : up ∈ l)
    (hvalid : goalIds.contains up.goalId = true) :
    up ∈ l.map (fun p => if goalIds.contains p.goalId then p
        else { p with goalId := ugid }) := by
  refine List.mem_map.mpr ⟨up, hup, ?_⟩
  show (if goalIds.contains up.goalId then up else { up with goalId := ugid }) = up
  rw [if_pos hvalid]

theorem topicStage_proj_mem (now : String) (up : Project) (ts : List Topic)
    (ps : List Project) (hup : up ∈ ps) :
    (topicStage now up ts).2.projectId ∈ ps.map (fun p => p.id) := by
  rw [(topicStage_mem now up ts).2.2]
  exact List.mem_map_of_mem _ hup

/-- C8 (amended): the migrator designates exactly one Unassigned Goal,
Project and Topic: each designated placeholder is present in the output with
`archived = false`, the Unassigned Project's `goalId` and the Unassigned
Topic's `projectId` resolve within the output, and — whenever the input
contains no legacy entity carrying the well-known id or the placeholder name
— the designated placeholder is freshly created with the stable well-known
constant id (`g-unassigned` / `p-unassigned` / `t-unassigned`) and is the
only output entity with that id.  (A legacy entity matched by **name** is
adopted and keeps its own id, so the output then contains no entity with the
well-known constant id; see `c8_counterexample`.) -/
theorem c8_claim (now : String) (input : Collections) :
    (migrateUnassigned now input).1 ∈ (migrateHierarchyData now input).goals
  ∧ (migrateUnassigned now input).1.archived = false
  ∧ (migrateUnassigned now input).2.1 ∈ (migrateHierarchyData now input).projects
  ∧ (migrateUnassigned now input).2.1.archived = false
  ∧ (migrateUnassigned now input).2.1.goalId
      ∈ (migrateHierarchyData now input).goals.map (fun g => g.id)
  ∧ (migrateUnassigned now input).2.2 ∈ (migrateHierarchyData now input).topics
  ∧ (migrateUnassigned now input).2.2.archived = false
  ∧ (migrateUnassigned now input).2.2.projectId
      ∈ (migrateHierarchyData now input).projects.map (fun p => p.id)
  ∧ (input.goals.all (fun g => g.id != UNASSIGNED_GOAL_ID && g.name != "Unassigned") = true →
      (migrateHierarchyData now input).goals.countP (fun g => g.id == UNASSIGNED_GOAL_ID) = 1
      ∧ (migrateUnassigned now input).1.id = UNASSIGNED_GOAL_ID)
  ∧ (input.projects.all (fun p => p.id != UNASSIGNED_PROJECT_ID && p.name != "Unassigned") = true →
      (migrateHierarchyData now input).projects.countP (fun p => p.id == UNASSIGNED_PROJECT_ID) = 1
      ∧ (migrateUnassigned now input).2.1.id = UNASSIGNED_PROJECT_ID)
  ∧ (input.topics.all (fun t => t.id != UNASSIGNED_TOPIC_ID && t.name != "Unassigned Topic") = true →
      (migrateHierarchyData now input).topics.countP (fun t => t.id == UNASSIGNED_TOPIC_ID) = 1
      ∧ (migrateUnassigned now input).2.2.id = UNASSIGNED_TOPIC_ID) := by
  obtain ⟨hugmem, hugarch⟩ := goalStage_mem now input.goals
  have hugid : ((goalStage now input.goals).1.map (fun g => g.id)).contains
      (goalStage now input.goals).2.id = true := by
    simpa using List.mem_map_of_mem (fun g : Goal => g.id) hugmem
  simp only [migrateHierarchyData, migrateUnassigned]
  refine ⟨hugmem, hugarch, ?_, ?_, ?_, ?_, ?_, ?_, ?_, ?_, ?_⟩
  · exact mem_map_fix_of_goalId_valid _ _ _ _
      (projStage_mem now _ _ input.projects hugid).1
      (projStage_mem now _ _ input.projects hugid).2.2
  · exact (projStage_mem now _ _ input.projects hugid).2.1
  · simpa using (projStage_mem now _ _ input.projects hugid).2.2
  · exact (topicStage_mem now _ _).1
  · exact (topicStage_mem now _ _).2.1
  · exact topicStage_proj_mem now _ _ _
      (mem_map_fix_of_goalId_valid _ _ _ _
        (projStage_mem now _ _ input.projects hugid).1
        (projStage_mem now _ _ input.projects hugid).2.2)
  · intro hall
    exact goalStage_clean now input.goals hall
  · intro hall
    exact projStage_clean now _ _ input.projects hall
  · intro hall
    exact topicStage_clean now _ _ input.topics hall

/-- C8 counterexample input: a single archived legacy goal named
`"Unassigned"` with a non-constant id. -/
def c8Goal : Goal := { id := "legacy-g", name := "Unassigned", archived := true }

def c8Input : Collections :=
  { goals := [c8Goal], projects := [], topics := [], sessions := [] }

/-- C8 counterexample: the migrator adopts the legacy goal by its name and
keeps its id, so the output contains **no** goal carrying the well-known
constant id `g-unassigned` — the claim's "exactly one Unassigned placeholder
identified by stable well-known constant ids" fails (the designated
placeholder is the un-archived legacy goal `legacy-g`). -/
theorem c8_counterexample :
    ((migrateHierarchyData "n" c8Input).goals.countP
        (fun g => g.id == UNASSIGNED_GOAL_ID) = 0)
  ∧ (migrateUnassigned "n" c8Input).1.id = "legacy-g"
  ∧ (migrateUnassigned "n" c8Input).1.archived = false := by
  decide

theorem c8_witness :
    ((migrateHierarchyData "n2" { goals := [], projects := [], topics := [], sessions := [] }).goals.countP
        (fun g => g.id == UNASSIGNED_GOAL_ID) = 1)
  ∧ (migrateUnassigned "n2" { goals := [], projects := [], topics := [], sessions := [] }).2.2
      ∈ (migrateHierarchyData "n2" { goals := [], projects := [], topics := [], sessions := [] }).topics := by
  have h := c8_claim "n2" { goals := [], projects := [], topics := [], sessions := [] }
  exact ⟨(h.2.2.2.2.2.2.2.2.1 (by decide)).1, h.2.2.2.2.2.1⟩

/-- C7 counterexample input: a break session carrying the empty-string
topicId, with no topics at all. -/
def c7Session : SessionRecord := { id := "s1", type := .brk, topicId := some "" }

def c7Input : Collections :=
  { goals := [], projects := [], topics := [], sessions := [c7Session] }

/-- C7 counterexample: the break session's `topicId` (`""`) names no Topic,
yet the migrated session keeps `topicId = ""` instead of being rebound to the
Unassigned Topic's id (`t-unassigned`), because `session.topicId &&` treats
the empty string as falsy — refuting the claim's "every Session whose topicId
named no Topic has topicId equal to the Unassigned Topic's id". -/
theorem c7_counterexample :
    ((migrateHierarchyData "n" c7Input).sessions.map (fun s => s.topicId) = [some ""])
  ∧ (migrateUnassigned "n" c7Input).2.2.id = UNASSIGNED_TOPIC_ID
  ∧ ((migrateHierarchyData "n" c7Input).topics.any (fun t => t.id == "")) = false := by
  decide

/-- C7 witness input: one project with a dangling `goalId`. -/
def c7WProj : Project := { id := "p1", goalId := "missing-goal", name := "P" }

def c7WInput : Collections :=
  { goals := [], projects := [c7WProj], topics := [], sessions := [] }

theorem c7_witness :
    ∃ q, (migrateHierarchyData "n" c7WInput).projects.take 1 = [q]
      ∧ q.goalId = (migrateUnassigned "n" c7WInput).1.id := by
  have h := (c7_claim "n" c7WInput).1
  cases h with
  | cons hrel htail =>
    cases htail
    exact ⟨_, rfl, hrel (by simp [c7WInput])⟩

end MyPomodoro
